import Mathlib

/-!
Verification of the range-type adaptation layer of a PostgreSQL client
(`psycopg3/types/range.py`): the `Range` value type, the text-format range
dumper/loader, oid upgrade logic and the `RangeInfo` catalog-metadata
resolver.  Buffers of wire bytes are modelled as `List Char` (the wire
format in scope is text only), Python `None` as `Option.none`, and raised
Python exceptions as `Except PyErr` results.
-/

/-- Python exceptions raised by the code under verification, by class. -/
inductive PyErr where
  | valueError (msg : String)
  | keyError
  | indexError
  | dataError (msg : String)
  | programmingError (msg : String)
deriving DecidableEq, Repr

/-- Python representation of a PostgreSQL range value (`class Range`):
`_lower`/`_upper` are the optional bounds, `_bounds` is one of the
two-character flag strings `[)`, `(]`, `()`, `[]`, or the empty string
for the empty range.  Strings are modelled as `List Char`. -/
structure Range (T : Type) where
  lower : Option T
  upper : Option T
  bounds : List Char
deriving DecidableEq, Repr

/-- The four valid bound-flag strings accepted by `Range.__init__`. -/
def validBounds : List (List Char) :=
  [['[', ')'], ['(', ']'], ['(', ')'], ['[', ']']]

/-- Embedding of `Range.__init__`: with `empty = false` the bounds flag is
validated against the four valid flags (`ValueError` otherwise); with
`empty = true` the arguments are discarded and the empty representation
(`lower = upper = None`, `bounds = ""`) is stored. -/
def Range.init {T : Type} (lower upper : Option T) (bounds : List Char)
    (empty : Bool) : Except PyErr (Range T) :=
  if !empty then
    if bounds ∉ validBounds then
      .error (.valueError "bound flags not valid")
    else
      .ok ⟨lower, upper, bounds⟩
  else
    .ok ⟨none, none, []⟩

/-- Embedding of `Range.isempty`: true iff `_bounds` is falsy (empty). -/
def Range.isempty {T : Type} (r : Range T) : Bool :=
  r.bounds.isEmpty

/-- Embedding of `Range.lower_inc`: the lower bound is included iff the
range is non-empty, the lower bound is present and the first flag
character is the inclusive `[`. -/
def Range.lower_inc {T : Type} (r : Range T) : Bool :=
  if r.bounds.isEmpty then false
  else
    match r.lower with
    | none => false
    | some _ => r.bounds.head? == some '['

/-- Embedding of `Range.upper_inc`: the upper bound is included iff the
range is non-empty, the upper bound is present and the second flag
character is the inclusive `]`. -/
def Range.upper_inc {T : Type} (r : Range T) : Bool :=
  if r.bounds.isEmpty then false
  else
    match r.upper with
    | none => false
    | some _ => r.bounds[1]? == some ']'

/-- Embedding of `Range.lower_inf`: true iff non-empty and `lower` absent. -/
def Range.lower_inf {T : Type} (r : Range T) : Bool :=
  if r.bounds.isEmpty then false else r.lower.isNone

/-- Embedding of `Range.upper_inf`: true iff non-empty and `upper` absent. -/
def Range.upper_inf {T : Type} (r : Range T) : Bool :=
  if r.bounds.isEmpty then false else r.upper.isNone

/-- Embedding of `Range.__eq__`: field-wise equality of `_lower`, `_upper`
and `_bounds` (against another `Range`). -/
def Range.eqb {T : Type} [DecidableEq T] (r1 r2 : Range T) : Bool :=
  decide (r1.lower = r2.lower) && decide (r1.upper = r2.upper)
    && decide (r1.bounds = r2.bounds)

/-- Embedding of `Range.__hash__`: `hash((self._lower, self._upper,
self._bounds))`, parameterized by the ambient tuple-hash function `h`. -/
def Range.hashWith {T : Type} (h : Option T → Option T → List Char → Nat)
    (r : Range T) : Nat :=
  h r.lower r.upper r.bounds

/-- C10: Range hashing is consistent with Range equality: equal ranges have
equal hashes (for any tuple-hash function of the three slots), and any two
ranges built by the constructor with `empty = true` are equal — hence equal
hashes — regardless of the `lower`, `upper`, `bounds` arguments passed. -/
theorem range_hash_consistent_with_eq :
    (∀ (T : Type) (inst : DecidableEq T)
        (h : Option T → Option T → List Char → Nat) (r1 r2 : Range T),
      @Range.eqb T inst r1 r2 = true →
        Range.hashWith h r1 = Range.hashWith h r2) ∧
    (∀ (T : Type) (lo1 up1 lo2 up2 : Option T) (b1 b2 : List Char)
        (r1 r2 : Range T),
      Range.init lo1 up1 b1 true = .ok r1 →
      Range.init lo2 up2 b2 true = .ok r2 →
      r1 = r2 ∧
        ∀ h : Option T → Option T → List Char → Nat,
          Range.hashWith h r1 = Range.hashWith h r2) := by
  constructor
  · intro T inst h r1 r2 heq
    simp only [Range.eqb, Bool.and_eq_true, decide_eq_true_eq] at heq
    obtain ⟨⟨h1, h2⟩, h3⟩ := heq
    simp [Range.hashWith, h1, h2, h3]
  · intro T lo1 up1 lo2 up2 b1 b2 r1 r2 h1 h2
    simp only [Range.init] at h1 h2
    cases h1; cases h2
    exact ⟨rfl, fun h => rfl⟩

/-- C10 witness: instantiated at two concrete empty-constructed integer
ranges with different discarded arguments, and at two equal ranges. -/
theorem range_hash_consistent_with_eq_witness :
    (Range.eqb (⟨some 1, some 2, ['[', ')']⟩ : Range Int)
        ⟨some 1, some 2, ['[', ')']⟩ = true) ∧
    ((⟨none, none, []⟩ : Range Int) = ⟨none, none, []⟩) := by
  refine ⟨?_, ?_⟩
  · have h := range_hash_consistent_with_eq.1 Int inferInstance
      (fun _ _ _ => 0) ⟨some 1, some 2, ['[', ')']⟩ ⟨some 1, some 2, ['[', ')']⟩
    decide
  · have h := (range_hash_consistent_with_eq.2 Int (some 3) (some 4) none none
      ['(', ')'] ['x'] ⟨none, none, []⟩ ⟨none, none, []⟩ rfl rfl).1
    exact h

/-- C7: the constructor raises a `ValueError` whenever `empty` is false and
`bounds` is not one of the four valid flags; and whenever `empty` is true it
stores `lower = None`, `upper = None` and the empty bounds marker regardless
of the arguments passed. -/
theorem range_init_validation :
    (∀ (T : Type) (lower upper : Option T) (bounds : List Char),
      bounds ∉ validBounds →
      Range.init lower upper bounds false =
        .error (.valueError "bound flags not valid")) ∧
    (∀ (T : Type) (lower upper : Option T) (bounds : List Char),
      Range.init lower upper bounds true = .ok ⟨none, none, []⟩) := by
  constructor
  · intro T lower upper bounds h
    simp [Range.init, h]
  · intro T lower upper bounds
    simp [Range.init]

/-- C7 witness: the invalid flag string `][` is rejected, and a fully
populated `empty = true` call yields the canonical empty range. -/
theorem range_init_validation_witness :
    ([']', '['] ∉ validBounds ∧
      Range.init (T := Int) (some 1) (some 2) [']', '['] false =
        .error (.valueError "bound flags not valid")) ∧
    Range.init (T := Int) (some 1) (some 2) ['[', ')'] true =
      .ok ⟨none, none, []⟩ := by
  refine ⟨⟨by decide, ?_⟩, ?_⟩
  · exact range_init_validation.1 Int (some 1) (some 2) [']', '['] (by decide)
  · exact range_init_validation.2 Int (some 1) (some 2) ['[', ')']

/-- Metadata record for a range type, as built by `RangeInfo._from_records`
from one catalog row `(name, oid, array_oid, range_subtype)`. -/
structure RangeInfo where
  name : String
  oid : Nat
  array_oid : Nat
  subtype : Nat
deriving DecidableEq, Repr

/-- A row of the `RangeInfo` catalog query: `(typname, oid, typarray,
rngsubtype)`. -/
abbrev CatalogRow := String × Nat × Nat × Nat

/-- Embedding of `RangeInfo._from_records`: `None` for zero rows, a
`ProgrammingError` for more than one row, otherwise a `RangeInfo` built
verbatim from the single row's four columns. -/
def RangeInfo.from_records (recs : List CatalogRow) :
    Except PyErr (Option RangeInfo) :=
  if recs.isEmpty then .ok none
  else if recs.length > 1 then
    .error (.programmingError "found multiple different ranges with this name")
  else
    match recs.head? with
    | some (n, o, a, s) => .ok (some ⟨n, o, a, s⟩)
    | none => .error .indexError

/-- C5: for every result set of the `RangeInfo` catalog query, zero rows
make the fetch path return `None`; more than one row raises the ambiguous
`ProgrammingError`; exactly one row returns a `RangeInfo` whose `name`,
`oid`, `array_oid` and `subtype` fields equal the row's columns verbatim. -/
theorem rangeinfo_from_records_cases :
    (RangeInfo.from_records [] = .ok none) ∧
    (∀ recs : List CatalogRow, 1 < recs.length →
      RangeInfo.from_records recs =
        .error (.programmingError
          "found multiple different ranges with this name")) ∧
    (∀ (n : String) (o a s : Nat),
      RangeInfo.from_records [(n, o, a, s)] = .ok (some ⟨n, o, a, s⟩)) := by
  refine ⟨rfl, ?_, ?_⟩
  · intro recs h
    have hne : recs.isEmpty = false := by
      cases recs with
      | nil => simp at h
      | cons x xs => rfl
    simp [RangeInfo.from_records, hne, h]
  · intro n o a s
    simp [RangeInfo.from_records]

/-- C5 witness: two synthetic rows raise the ambiguous error; the other
two cases are closed already and evaluated at a concrete row. -/
theorem rangeinfo_from_records_cases_witness :
    (1 < ([("r", 1, 2, 3), ("r", 4, 5, 6)] : List CatalogRow).length) ∧
    RangeInfo.from_records [("r", 1, 2, 3), ("r", 4, 5, 6)] =
      .error (.programmingError
        "found multiple different ranges with this name") ∧
    RangeInfo.from_records [("myrange", 7, 8, 9)] =
      .ok (some ⟨"myrange", 7, 8, 9⟩) := by
  refine ⟨by decide, ?_, ?_⟩
  · exact rangeinfo_from_records_cases.2.1 [("r", 1, 2, 3), ("r", 4, 5, 6)]
      (by decide)
  · exact rangeinfo_from_records_cases.2.2 "myrange" 7 8 9

/-- Lexicographic order on character lists, the order Python uses to
compare the `_bounds` strings in `Range.__lt__`. -/
def lexLt : List Char → List Char → Bool
  | [], [] => false
  | [], _ :: _ => true
  | _ :: _, [] => false
  | a :: as, b :: bs =>
    if a < b then true else if a = b then lexLt as bs else false

/-- Embedding of `Range.__lt__`: walk `_lower`, `_upper`, `_bounds` in that
order; an equal field falls through to the next; at the first unequal field
return `True` if the left value is `None`, `False` if the right value is
`None`, and the element comparison otherwise (`_bounds` values are strings,
never `None`, so they compare lexicographically).  After the loop the
result is `False`. -/
def Range.lt {T : Type} [LinearOrder T] (r1 r2 : Range T) : Bool :=
  if r1.lower = r2.lower then
    if r1.upper = r2.upper then
      if r1.bounds = r2.bounds then false
      else lexLt r1.bounds r2.bounds
    else
      match r1.upper, r2.upper with
      | none, _ => true
      | some _, none => false
      | some a, some b => decide (a < b)
  else
    match r1.lower, r2.lower with
    | none, _ => true
    | some _, none => false
    | some a, some b => decide (a < b)

/-- Comparison of one optional field as the claim words it: at a differing
field the result is true when the left side is `None`, false when the right
side is `None`, and the element-wise `<` otherwise. -/
def fieldLtSpec {T : Type} [LinearOrder T] : Option T → Option T → Bool
  | none, _ => true
  | some _, none => false
  | some a, some b => decide (a < b)

/-- Restatement of the ordering rule following the claim text: compare
`lower`, then `upper`, then `bounds`, deciding at the first field where the
two sides differ. -/
def Range.ltSpec {T : Type} [LinearOrder T] (r1 r2 : Range T) : Bool :=
  if r1.lower ≠ r2.lower then fieldLtSpec r1.lower r2.lower
  else if r1.upper ≠ r2.upper then fieldLtSpec r1.upper r2.upper
  else if r1.bounds ≠ r2.bounds then lexLt r1.bounds r2.bounds
  else false

/-- C2: `Range.__lt__` compares `lower`, then `upper`, then `bounds` field
by field, and at the first differing field returns true when the left value
is `None`, false when the right value is `None`, and the element-wise `<`
otherwise; in particular `Range(None, 5, "[)") < Range(1, 5, "[)")` is true
while `Range(1, 5, "[)") < Range(None, 5, "[)")` is false. -/
theorem range_lt_field_by_field :
    (∀ (T : Type) (inst : LinearOrder T) (r1 r2 : Range T),
      @Range.lt T inst r1 r2 = @Range.ltSpec T inst r1 r2) ∧
    Range.lt (⟨none, some 5, ['[', ')']⟩ : Range Int)
      ⟨some 1, some 5, ['[', ')']⟩ = true ∧
    Range.lt (⟨some 1, some 5, ['[', ')']⟩ : Range Int)
      ⟨none, some 5, ['[', ')']⟩ = false := by
  refine ⟨?_, by decide, by decide⟩
  intro T inst r1 r2
  unfold Range.lt Range.ltSpec
  by_cases h1 : r1.lower = r2.lower
  · by_cases h2 : r1.upper = r2.upper
    · by_cases h3 : r1.bounds = r2.bounds <;> simp [h1, h2, h3]
    · simp only [h1, if_true, h2, if_false, ne_eq, not_true_eq_false,
        not_false_eq_true]
      cases hu1 : r1.upper <;> cases hu2 : r2.upper <;>
        simp_all [fieldLtSpec]
  · simp only [h1, if_false, ne_eq, not_false_eq_true, if_true]
    cases hl1 : r1.lower <;> cases hl2 : r2.lower <;>
      simp_all [fieldLtSpec]

/-- Embedding of `Range.__contains__`: false for the empty range; otherwise
return false as soon as a present bound's check fails (`x < lower` for an
inclusive lower flag, `x <= lower` for an exclusive one; symmetrically
`x > upper` / `x >= upper` above), true otherwise. -/
def Range.containsVal {T : Type} [LinearOrder T] (r : Range T) (x : T) :
    Bool :=
  if r.bounds.isEmpty then false
  else
    let lowerFail : Bool :=
      match r.lower with
      | none => false
      | some lo =>
        if r.bounds.head? == some '[' then decide (x < lo)
        else decide (x ≤ lo)
    let upperFail : Bool :=
      match r.upper with
      | none => false
      | some up =>
        if r.bounds[1]? == some ']' then decide (up < x)
        else decide (up ≤ x)
    if lowerFail then false else if upperFail then false else true

/-- Restatement of membership following the claim text: non-empty, and the
lower-bound check (`x >= lower` when inclusive, `x > lower` when exclusive,
unconstrained when absent) and the upper-bound check both pass. -/
def Range.containsSpec {T : Type} [LinearOrder T] (r : Range T) (x : T) :
    Bool :=
  if r.bounds.isEmpty then false
  else
    (match r.lower with
     | none => true
     | some lo =>
       if r.bounds.head? == some '[' then decide (lo ≤ x)
       else decide (lo < x)) &&
    (match r.upper with
     | none => true
     | some up =>
       if r.bounds[1]? == some ']' then decide (x ≤ up)
       else decide (x < up))

/-- C6: membership is false on empty ranges and otherwise the conjunction
of the lower-bound check (non-strict iff the lower flag is inclusive,
vacuous if absent) and the upper-bound check (non-strict iff the upper flag
is inclusive, vacuous if absent); in particular for `Range(1, 10, "[)")`
the value 1 is in, 10 and 0 are out, and 10 is in `Range(1, 10, "[]")`. -/
theorem range_contains_characterization :
    (∀ (T : Type) (inst : LinearOrder T) (r : Range T) (x : T),
      @Range.containsVal T inst r x = @Range.containsSpec T inst r x) ∧
    Range.containsVal (⟨some 1, some 10, ['[', ')']⟩ : Range Int) 1 = true ∧
    Range.containsVal (⟨some 1, some 10, ['[', ')']⟩ : Range Int) 10 = false ∧
    Range.containsVal (⟨some 1, some 10, ['[', ')']⟩ : Range Int) 0 = false ∧
    Range.containsVal (⟨some 1, some 10, ['[', ']']⟩ : Range Int) 10 = true := by
  refine ⟨?_, by decide, by decide, by decide, by decide⟩
  intro T inst r x
  unfold Range.containsVal Range.containsSpec
  by_cases hb : r.bounds.isEmpty
  · simp [hb]
  · simp only [hb, if_false]
    cases hl : r.lower with
    | none =>
      cases hu : r.upper with
      | none => simp
      | some up =>
        by_cases hc : r.bounds[1]? == some ']' <;>
          simp [hc, ← decide_not, not_lt, not_le]
    | some lo =>
      cases hu : r.upper with
      | none =>
        by_cases hc : r.bounds.head? == some '[' <;>
          simp [hc, ← decide_not, not_lt, not_le]
      | some up =>
        by_cases hc1 : r.bounds.head? == some '[' <;>
          by_cases hc2 : r.bounds[1]? == some ']' <;>
            simp [hc1, hc2, ← decide_not, not_lt, not_le]

/-- The literal wire token for an empty range, `b"empty"`. -/
def emptyBytes : List Char := ['e', 'm', 'p', 't', 'y']

/-- Join a list of already-encoded tokens with a separator character. -/
def joinSep (sep : Char) : List (List Char) → List Char
  | [] => []
  | [t] => t
  | t :: ts => t ++ sep :: joinSep sep ts

/-- Modelled from the spec: the shared bound-pair codec
`encode(sequence, open_delim, close_delim, separator)` (`SequenceDumper.
_dump_sequence`, whose body is outside this excerpt).  Each present element
is serialized by its own text encoding, an absent element becomes the empty
absent token, the tokens are joined by the separator and wrapped in the two
delimiter bytes. -/
def dumpSequence {T : Type} (enc : T → List Char) (items : List (Option T))
    (openD closeD sep : Char) : List Char :=
  openD ::
    (joinSep sep (items.map fun it =>
      match it with
      | none => []
      | some v => enc v) ++ [closeD])

/-- Embedding of `RangeDumper.dump`: the literal `empty` token for a falsy
(empty) range, otherwise the `(lower, upper)` pair through the bound-pair
codec with `[`/`(` chosen by `lower_inc`, `]`/`)` chosen by `upper_inc`,
and `,` as separator. -/
def RangeDumper.dump {T : Type} (enc : T → List Char) (r : Range T) :
    List Char :=
  if r.bounds.isEmpty then emptyBytes
  else
    dumpSequence enc [r.lower, r.upper]
      (if r.lower_inc then '[' else '(')
      (if r.upper_inc then ']' else ')') ','

/-- Embedding of the `_int2parens` table: maps each of the four delimiter
bytes to its character, and nothing else (a missing key is Python's
`KeyError`). -/
def int2parens (c : Char) : Option Char :=
  if c = '[' ∨ c = ']' ∨ c = '(' ∨ c = ')' then some c else none

/-- Split a character list on a separator; n separators yield n + 1 tokens
(the empty input yields one empty token). -/
def splitTokens (sep : Char) : List Char → List (List Char)
  | [] => [[]]
  | c :: rest =>
    match splitTokens sep rest with
    | [] => [[]]
    | t :: ts => if c = sep then [] :: t :: ts else (c :: t) :: ts

/-- Modelled from the spec: the shared composite-record decoder
(`BaseCompositeLoader._parse_record`, whose body is outside this excerpt):
`decode(interior_bytes)` yields the comma-separated fields, an empty field
standing for the absent (NULL) marker and any other field for its raw
bytes. -/
def parseRecord (interior : List Char) : List (Option (List Char)) :=
  (splitTokens ',' interior).map fun t => if t.isEmpty then none else some t

/-- Decode one record token as `RangeLoader.load` does: the absent marker
maps to `None`, a present token goes through the element loader `decode`
(whose parse failure raises a data error). -/
def loadToken {T : Type} (decode : List Char → Option T) :
    Option (List Char) → Except PyErr (Option T)
  | none => .ok none
  | some tok =>
    match decode tok with
    | some v => .ok (some v)
    | none => .error (.dataError "cannot parse token")

/-- Embedding of `RangeLoader.load`: the literal `empty` token yields the
empty range; otherwise the first and last bytes are looked up in
`_int2parens` (`KeyError` on a miss; `IndexError` on empty input), the
interior is parsed as a composite record which must unpack into exactly two
tokens (`ValueError` otherwise), each token is decoded by the element
loader, and the result goes through the `Range` constructor, which rejects
an invalid reconstructed bounds flag. -/
def RangeLoader.load {T : Type} (decode : List Char → Option T)
    (data : List Char) : Except PyErr (Range T) :=
  if data = emptyBytes then .ok ⟨none, none, []⟩
  else
    match data.head?, data.getLast? with
    | some c0, some c1 =>
      match int2parens c0, int2parens c1 with
      | some b0, some b1 =>
        match parseRecord ((data.drop 1).dropLast) with
        | [t0, t1] =>
          match loadToken decode t0, loadToken decode t1 with
          | .ok mn, .ok mx => Range.init mn mx [b0, b1] false
          | .error err, _ => .error err
          | _, .error err => .error err
        | _ => .error (.valueError "wrong number of values to unpack")
      | _, _ => .error .keyError
    | _, _ => .error .indexError

/-- Splitting never produces an empty token list. -/
theorem splitTokens_ne_nil (sep : Char) (l : List Char) :
    splitTokens sep l ≠ [] := by
  cases l with
  | nil => simp [splitTokens]
  | cons c rest =>
    simp only [splitTokens]
    cases h : splitTokens sep rest with
    | nil => simp
    | cons t ts => by_cases hc : c = sep <;> simp [hc]

/-- A separator-free list splits into itself as the single token. -/
theorem splitTokens_no_sep (sep : Char) (xs : List Char) (h : sep ∉ xs) :
    splitTokens sep xs = [xs] := by
  induction xs with
  | nil => rfl
  | cons c rest ih =>
    have hc : c ≠ sep := by rintro rfl; exact h (List.mem_cons_self _ _)
    have hrest : sep ∉ rest := fun hm => h (List.mem_cons_of_mem _ hm)
    simp only [splitTokens, ih hrest]
    simp [hc]

/-- Splitting at the first separator peels off the leading token. -/
theorem splitTokens_append (sep : Char) (xs ys : List Char) (h : sep ∉ xs) :
    splitTokens sep (xs ++ sep :: ys) = xs :: splitTokens sep ys := by
  induction xs with
  | nil =>
    simp only [List.nil_append, splitTokens]
    cases hy : splitTokens sep ys with
    | nil => exact absurd hy (splitTokens_ne_nil sep ys)
    | cons t ts => simp
  | cons c rest ih =>
    have hc : c ≠ sep := by rintro rfl; exact h (List.mem_cons_self _ _)
    have hrest : sep ∉ rest := fun hm => h (List.mem_cons_of_mem _ hm)
    simp only [List.cons_append, splitTokens, List.append_eq]
    rw [ih hrest]
    simp [hc]

/-- The `_int2parens` table returns its key unchanged when it hits. -/
theorem int2parens_eq_self {c b : Char} (h : int2parens c = some b) :
    b = c := by
  unfold int2parens at h
  split at h
  · exact (Option.some.injEq _ _ ▸ h).symm
  · exact absurd h (by simp)

/-- Loading a well-shaped non-empty pair payload: delimiters from the valid
open/close sets, two separator-free non-empty tokens each accepted by the
element loader. -/
theorem load_pair {T : Type} (decode : List Char → Option T)
    (ta tb : List Char) (a b : T) (c0 c1 : Char)
    (hc0 : c0 = '[' ∨ c0 = '(') (hc1 : c1 = ']' ∨ c1 = ')')
    (hda : decode ta = some a) (hdb : decode tb = some b)
    (hna : ta ≠ []) (hnb : tb ≠ [])
    (hsa : ',' ∉ ta) (hsb : ',' ∉ tb) :
    RangeLoader.load decode (c0 :: ((ta ++ ',' :: tb) ++ [c1])) =
      .ok ⟨some a, some b, [c0, c1]⟩ := by
  have hlast : (c0 :: ((ta ++ ',' :: tb) ++ [c1])).getLast? = some c1 := by
    rw [show (c0 :: ((ta ++ ',' :: tb) ++ [c1])) =
        (c0 :: (ta ++ ',' :: tb)) ++ [c1] from rfl]
    exact List.getLast?_concat _
  have hint : ((c0 :: ((ta ++ ',' :: tb) ++ [c1])).drop 1).dropLast =
      ta ++ ',' :: tb := by
    rw [show (c0 :: ((ta ++ ',' :: tb) ++ [c1])).drop 1 =
        (ta ++ ',' :: tb) ++ [c1] from rfl]
    exact List.dropLast_concat
  have hrec : parseRecord (ta ++ ',' :: tb) = [some ta, some tb] := by
    unfold parseRecord
    rw [splitTokens_append _ _ _ hsa, splitTokens_no_sep _ _ hsb]
    have hea : ta.isEmpty = false := by simpa using hna
    have heb : tb.isEmpty = false := by simpa using hnb
    simp [hea, heb, hna, hnb]
  rcases hc0 with rfl | rfl <;> rcases hc1 with rfl | rfl <;>
  · unfold RangeLoader.load
    rw [if_neg (by simp [emptyBytes])]
    simp only [List.head?_cons, hlast, hint, hrec]
    simp [int2parens, loadToken, hda, hdb, Range.init, validBounds]

/-- The token the bound-pair codec writes for one optional bound: the
absent token (empty) for `None`, the element's text encoding otherwise. -/
def optToken {T : Type} (enc : T → List Char) : Option T → List Char
  | none => []
  | some v => enc v

/-- Tiny concrete element codec used to instantiate parameterized theorems:
booleans encoded as the one-byte tokens `f` / `t`. -/
def encBool : Bool → List Char
  | false => ['f']
  | true => ['t']

/-- Decoder matching `encBool`; any other token is a parse failure. -/
def decBool : List Char → Option Bool
  | ['f'] => some false
  | ['t'] => some true
  | _ => none

/-- C8: `RangeDumper.dump` returns exactly the bytes `empty` for every
empty range; for every non-empty range it returns the two bound tokens
(absent bound ↦ the codec's absent token) joined by `,`, wrapped between an
opening byte that is `[` iff `lower_inc` (else `(`) and a closing byte that
is `]` iff `upper_inc` (else `)`). -/
theorem range_dump_format :
    (∀ (T : Type) (enc : T → List Char) (r : Range T),
      r.isempty = true → RangeDumper.dump enc r = emptyBytes) ∧
    (∀ (T : Type) (enc : T → List Char) (r : Range T),
      r.isempty = false →
      RangeDumper.dump enc r =
        (if r.lower_inc then '[' else '(') ::
          ((optToken enc r.lower ++ ',' :: optToken enc r.upper) ++
            [if r.upper_inc then ']' else ')'])) := by
  constructor
  · intro T enc r h
    rw [Range.isempty] at h
    simp [RangeDumper.dump, h]
  · intro T enc r h
    rw [Range.isempty] at h
    unfold RangeDumper.dump dumpSequence
    rw [h]
    cases hl : r.lower <;> cases hu : r.upper <;> simp [joinSep, optToken]

/-- C8 witness: evaluated at the empty boolean range and at
`Range(false, true, "[)")` with the concrete boolean codec. -/
theorem range_dump_format_witness :
    (Range.isempty (⟨none, none, []⟩ : Range Bool) = true ∧
      RangeDumper.dump encBool ⟨none, none, []⟩ = emptyBytes) ∧
    (Range.isempty (⟨some false, some true, ['[', ')']⟩ : Range Bool)
        = false ∧
      RangeDumper.dump encBool ⟨some false, some true, ['[', ')']⟩ =
        '[' :: ((['f'] ++ ',' :: ['t']) ++ [')'])) := by
  refine ⟨⟨rfl, range_dump_format.1 Bool encBool _ rfl⟩, ⟨rfl, ?_⟩⟩
  have h := range_dump_format.2 Bool encBool
    ⟨some false, some true, ['[', ')']⟩ rfl
  simpa [optToken, encBool] using h

/-- C1: for every valid bounds flag and every pair of values `a ≤ b`,
`Range(a, b, f)` constructed through the constructor serializes with
`RangeDumper.dump` and parses back with `RangeLoader.load` (the element
tokens decoded by a matching element loader) to an equal range with the
same `lower`, `upper` and `bounds` fields — for any element codec whose
tokens are non-empty, comma-free and round-trip. -/
theorem range_dump_load_roundtrip :
    ∀ (T : Type) (instLE : LE T) (enc : T → List Char)
      (decode : List Char → Option T) (a b : T) (f : List Char),
      f ∈ validBounds → @LE.le T instLE a b →
      decode (enc a) = some a → decode (enc b) = some b →
      enc a ≠ [] → enc b ≠ [] → ',' ∉ enc a → ',' ∉ enc b →
      Range.init (some a) (some b) f false = .ok ⟨some a, some b, f⟩ ∧
      RangeLoader.load decode (RangeDumper.dump enc ⟨some a, some b, f⟩) =
        .ok ⟨some a, some b, f⟩ := by
  intro T instLE enc decode a b f hf hle hda hdb hna hnb hsa hsb
  refine ⟨by simp [Range.init, hf], ?_⟩
  have hf2 : f = ['[', ')'] ∨ f = ['(', ']'] ∨ f = ['(', ')'] ∨
      f = ['[', ']'] := by simpa [validBounds] using hf
  rcases hf2 with rfl | rfl | rfl | rfl
  · rw [show RangeDumper.dump enc ⟨some a, some b, ['[', ')']⟩ =
        '[' :: ((enc a ++ ',' :: enc b) ++ [')']) from rfl]
    exact load_pair decode _ _ a b '[' ')' (Or.inl rfl) (Or.inr rfl)
      hda hdb hna hnb hsa hsb
  · rw [show RangeDumper.dump enc ⟨some a, some b, ['(', ']']⟩ =
        '(' :: ((enc a ++ ',' :: enc b) ++ [']']) from rfl]
    exact load_pair decode _ _ a b '(' ']' (Or.inr rfl) (Or.inl rfl)
      hda hdb hna hnb hsa hsb
  · rw [show RangeDumper.dump enc ⟨some a, some b, ['(', ')']⟩ =
        '(' :: ((enc a ++ ',' :: enc b) ++ [')']) from rfl]
    exact load_pair decode _ _ a b '(' ')' (Or.inr rfl) (Or.inr rfl)
      hda hdb hna hnb hsa hsb
  · rw [show RangeDumper.dump enc ⟨some a, some b, ['[', ']']⟩ =
        '[' :: ((enc a ++ ',' :: enc b) ++ [']']) from rfl]
    exact load_pair decode _ _ a b '[' ']' (Or.inl rfl) (Or.inl rfl)
      hda hdb hna hnb hsa hsb

/-- C1 witness: the boolean range `Range(false, true, "[)")` with the
concrete boolean codec round-trips through dump-then-load. -/
theorem range_dump_load_roundtrip_witness :
    (['[', ')'] ∈ validBounds ∧ (false ≤ true) ∧
      decBool (encBool false) = some false ∧
      decBool (encBool true) = some true ∧
      encBool false ≠ [] ∧ encBool true ≠ [] ∧
      ',' ∉ encBool false ∧ ',' ∉ encBool true) ∧
    RangeLoader.load decBool
        (RangeDumper.dump encBool ⟨some false, some true, ['[', ')']⟩) =
      .ok ⟨some false, some true, ['[', ')']⟩ := by
  refine ⟨⟨by decide, by decide, rfl, rfl, by decide, by decide,
    by decide, by decide⟩, ?_⟩
  exact (range_dump_load_roundtrip Bool inferInstance encBool decBool
    false true ['[', ')'] (by decide) (by decide) rfl rfl (by decide)
    (by decide) (by decide) (by decide)).2

/-- The interior of a range payload, `data[1:-1]`. -/
def interiorOf (data : List Char) : List Char :=
  (data.drop 1).dropLast

/-- The number of composite-record fields the payload's interior parses
into. -/
def fieldCount (data : List Char) : Nat :=
  (parseRecord (interiorOf data)).length

/-- Whether the first and last payload bytes form a valid open/close
delimiter pair (`[` or `(` opening, `]` or `)` closing). -/
def validDelims (data : List Char) : Bool :=
  (data.head? == some '[' || data.head? == some '(') &&
    (data.getLast? == some ']' || data.getLast? == some ')')

/-- C3: every input that is not the literal `empty` token and is not a
well-formed range text (wrong number of interior fields, or delimiter
bytes that are not a valid open/close pair) makes `RangeLoader.load` fail
with an error and never yields a partial `Range`; in particular loading
`[1,2,3)` fails (a `ValueError` at the two-field unpack) for every element
loader. -/
theorem range_load_malformed_fails :
    (∀ (T : Type) (decode : List Char → Option T) (data : List Char),
      data ≠ emptyBytes →
      fieldCount data ≠ 2 ∨ validDelims data = false →
      ∃ err, RangeLoader.load decode data = .error err) ∧
    (∀ (T : Type) (decode : List Char → Option T),
      RangeLoader.load decode ['[', '1', ',', '2', ',', '3', ')'] =
        .error (.valueError "wrong number of values to unpack")) := by
  constructor
  · intro T decode data hne hmal
    unfold RangeLoader.load
    rw [if_neg hne]
    cases data with
    | nil => exact ⟨.indexError, rfl⟩
    | cons c0 rest =>
      obtain ⟨c1, hlast⟩ : ∃ c1, (c0 :: rest).getLast? = some c1 := by
        have hs : (c0 :: rest).getLast?.isSome := by
          rw [List.getLast?_isSome]; simp
        exact Option.isSome_iff_exists.mp hs
      simp only [List.head?_cons, hlast]
      cases hp0 : int2parens c0 with
      | none => exact ⟨.keyError, rfl⟩
      | some b0 =>
        cases hp1 : int2parens c1 with
        | none => exact ⟨.keyError, rfl⟩
        | some b1 =>
          have hb0 : c0 = b0 := (int2parens_eq_self hp0).symm
          have hb1 : c1 = b1 := (int2parens_eq_self hp1).symm
          subst hb0; subst hb1
          simp only [List.drop_succ_cons, List.drop_zero]
          rcases hmal with hcount | hdel
          · have hlen : (parseRecord rest.dropLast).length ≠ 2 := by
              simpa [fieldCount, interiorOf] using hcount
            rcases hpr : parseRecord rest.dropLast with
              _ | ⟨t0, _ | ⟨t1, _ | ⟨t2, ts⟩⟩⟩
            · exact ⟨.valueError "wrong number of values to unpack", rfl⟩
            · exact ⟨.valueError "wrong number of values to unpack", rfl⟩
            · rw [hpr] at hlen; simp at hlen
            · exact ⟨.valueError "wrong number of values to unpack", rfl⟩
          · have hdel2 : ¬ (c0 = '[' ∨ c0 = '(') ∨
                ¬ (c1 = ']' ∨ c1 = ')') := by
              by_contra hcon
              push_neg at hcon
              obtain ⟨h1, h2⟩ := hcon
              rcases h1 with rfl | rfl <;> rcases h2 with rfl | rfl <;>
                simp [validDelims, hlast] at hdel
            have hnvb : [c0, c1] ∉ validBounds := by
              intro hmem
              have hm4 : [c0, c1] = ['[', ')'] ∨ [c0, c1] = ['(', ']'] ∨
                  [c0, c1] = ['(', ')'] ∨ [c0, c1] = ['[', ']'] := by
                simpa [validBounds] using hmem
              rcases hm4 with h | h | h | h <;>
              · simp only [List.cons.injEq, and_true] at h
                obtain ⟨rfl, rfl⟩ := h
                rcases hdel2 with hd | hd <;> simp at hd
            rcases hpr : parseRecord rest.dropLast with
              _ | ⟨t0, _ | ⟨t1, _ | ⟨t2, ts⟩⟩⟩
            · exact ⟨.valueError "wrong number of values to unpack", rfl⟩
            · exact ⟨.valueError "wrong number of values to unpack", rfl⟩
            · cases hlt0 : loadToken decode t0 with
              | error e => exact ⟨e, by simp [hlt0]⟩
              | ok mn =>
                cases hlt1 : loadToken decode t1 with
                | error e => exact ⟨e, by simp [hlt0, hlt1]⟩
                | ok mx =>
                  refine ⟨.valueError "bound flags not valid", ?_⟩
                  simp [hlt0, hlt1, Range.init, hnvb]
            · exact ⟨.valueError "wrong number of values to unpack", rfl⟩
  · intro T decode
    rfl

/-- C3 witness: the concrete payload `[1,2,3)` is not the empty token, has
three interior fields, and fails with the two-field-unpack `ValueError`
under the concrete boolean element loader. -/
theorem range_load_malformed_fails_witness :
    (['[', '1', ',', '2', ',', '3', ')'] ≠ emptyBytes ∧
      fieldCount ['[', '1', ',', '2', ',', '3', ')'] ≠ 2) ∧
    (∃ err, RangeLoader.load decBool ['[', '1', ',', '2', ',', '3', ')'] =
      .error err) ∧
    RangeLoader.load decBool ['[', '1', ',', '2', ',', '3', ')'] =
      .error (.valueError "wrong number of values to unpack") := by
  refine ⟨⟨by decide, by decide⟩, ?_, ?_⟩
  · exact range_load_malformed_fails.1 Bool decBool _ (by decide)
      (Or.inl (by decide))
  · exact range_load_malformed_fails.2 Bool decBool

/-- Modelled from the spec: the explicit "unknown" sentinel oid
(`INVALID_OID` from the oids module, outside this excerpt). -/
def INVALID_OID : Nat := 0

/-- Python runtime value of a range element, carrying the class
information that `isinstance` inspects. -/
inductive PyVal where
  | pyBool (b : Bool)
  | pyInt (n : Int)
  | pyDate (y m d : Nat)
  | pyDecimal (s : String)
  | pyStr (s : String)
deriving DecidableEq, Repr

/-- The `isinstance(item, int)` test of `RangeDumper.upgrade`: true for
`int` values and for `bool` values, because Python `bool` is a subclass of
`int`. -/
def PyVal.isinstance_int : PyVal → Bool
  | pyInt _ => true
  | pyBool _ => true
  | _ => false

/-- An element dumper as resolved by the adaptation context; only its oid
matters to `upgrade`. -/
structure SubDumper where
  oid : Nat
deriving DecidableEq, Repr

/-- An entry of the builtin range catalog (`builtins.get_range` result);
only its range oid matters here. -/
structure RangeTypeInfo where
  oid : Nat
deriving DecidableEq, Repr

/-- The observable state of the dumper `upgrade` returns: its assigned oid
and the resolved element sub-dumper. -/
structure RangeDumperState where
  oid : Nat
  sub_dumper : Option SubDumper
deriving DecidableEq, Repr

/-- Embedding of `RangeDumper._get_item`: a representative member of the
range — `lower` if present, else `upper`. -/
def getItem {T : Type} (r : Range T) : Option T :=
  match r.lower with
  | some v => some v
  | none => r.upper

/-- Embedding of `RangeDumper._get_range_oid` over an abstract builtin
range catalog `get_range` (modelled from the spec: the static catalog
lives in the oids module, outside this excerpt): the registered range oid
for the element oid, or `INVALID_OID` when none is registered. -/
def get_range_oid (get_range : Nat → Option RangeTypeInfo)
    (sub_oid : Nat) : Nat :=
  match get_range sub_oid with
  | some info => info.oid
  | none => INVALID_OID

/-- Embedding of `RangeDumper.upgrade` at element type `PyVal`:
`get_dumper` is the adaptation context's dumper resolution, `get_range`
the builtin range catalog, `baseOid` the oid of a plain class-level
dumper.  No representative element yields a plain dumper; otherwise the
element's dumper becomes the sub-dumper, and the oid is the catalog's
range oid for the element dumper's oid — unless the element is an `int`
instance, in which case the oid is forced to `INVALID_OID` (the server
will not cast between differently-sized integer ranges). -/
def RangeDumper.upgrade (get_dumper : PyVal → SubDumper)
    (get_range : Nat → Option RangeTypeInfo) (baseOid : Nat)
    (r : Range PyVal) : RangeDumperState :=
  match getItem r with
  | none => { oid := baseOid, sub_dumper := none }
  | some item =>
    let sd := get_dumper item
    if !item.isinstance_int then
      { oid := get_range_oid get_range sd.oid, sub_dumper := some sd }
    else
      { oid := INVALID_OID, sub_dumper := some sd }

/-- C4: for every range with a representative element, `upgrade` assigns
the new dumper's oid as the unknown sentinel `INVALID_OID` when the element
is an integer instance — regardless of any catalog entry — and otherwise
as the builtin catalog's range oid for the element dumper's oid when
registered, `INVALID_OID` when not. -/
theorem range_dumper_upgrade_oid :
    ∀ (get_dumper : PyVal → SubDumper)
      (get_range : Nat → Option RangeTypeInfo) (baseOid : Nat)
      (r : Range PyVal) (item : PyVal),
      getItem r = some item →
      (item.isinstance_int = true →
        (RangeDumper.upgrade get_dumper get_range baseOid r).oid =
          INVALID_OID) ∧
      (item.isinstance_int = false →
        (RangeDumper.upgrade get_dumper get_range baseOid r).oid =
          match get_range (get_dumper item).oid with
          | some info => info.oid
          | none => INVALID_OID) := by
  intro get_dumper get_range baseOid r item hitem
  unfold RangeDumper.upgrade
  rw [hitem]
  constructor
  · intro hint
    simp [hint]
  · intro hint
    simp [hint, get_range_oid]

/-- C4 witness: an integer element keeps `INVALID_OID` even with a catalog
entry for its dumper's oid; a date element takes the registered range oid;
an element with no catalog entry falls back to `INVALID_OID`. -/
theorem range_dumper_upgrade_oid_witness :
    (getItem (⟨some (.pyInt 1), some (.pyInt 5), ['[', ')']⟩ :
        Range PyVal) = some (.pyInt 1) ∧
      PyVal.isinstance_int (.pyInt 1) = true ∧
      (RangeDumper.upgrade (fun _ => ⟨23⟩)
        (fun n => if n = 23 then some ⟨3904⟩ else none) 99
        ⟨some (.pyInt 1), some (.pyInt 5), ['[', ')']⟩).oid =
        INVALID_OID) ∧
    (getItem (⟨some (.pyDate 2021 1 1), some (.pyDate 2021 2 1),
        ['[', ')']⟩ : Range PyVal) = some (.pyDate 2021 1 1) ∧
      PyVal.isinstance_int (.pyDate 2021 1 1) = false ∧
      (RangeDumper.upgrade (fun _ => ⟨1082⟩)
        (fun n => if n = 1082 then some ⟨3912⟩ else none) 99
        ⟨some (.pyDate 2021 1 1), some (.pyDate 2021 2 1),
          ['[', ')']⟩).oid = 3912) ∧
    ((RangeDumper.upgrade (fun _ => ⟨700⟩) (fun _ => none) 99
        ⟨some (.pyStr "x"), none, ['[', ')']⟩).oid = INVALID_OID) := by
  refine ⟨⟨rfl, rfl, ?_⟩, ⟨rfl, rfl, ?_⟩, ?_⟩
  · exact (range_dumper_upgrade_oid (fun _ => ⟨23⟩)
      (fun n => if n = 23 then some ⟨3904⟩ else none) 99
      ⟨some (.pyInt 1), some (.pyInt 5), ['[', ')']⟩ (.pyInt 1) rfl).1 rfl
  · have h := (range_dumper_upgrade_oid (fun _ => ⟨1082⟩)
      (fun n => if n = 1082 then some ⟨3912⟩ else none) 99
      ⟨some (.pyDate 2021 1 1), some (.pyDate 2021 2 1), ['[', ')']⟩
      (.pyDate 2021 1 1) rfl).2 rfl
    simpa using h
  · have h := (range_dumper_upgrade_oid (fun _ => ⟨700⟩) (fun _ => none) 99
      ⟨some (.pyStr "x"), none, ['[', ')']⟩ (.pyStr "x") rfl).2 rfl
    simpa [INVALID_OID] using h

/-- C9: because `isinstance(item, int)` is true for Python booleans, every
range whose representative element is a boolean takes the integer branch
of `upgrade`: the oid is the unknown sentinel `INVALID_OID` for every
possible catalog, so the builtin range catalog is never consulted. -/
theorem range_dumper_upgrade_bool_forces_unknown :
    ∀ (get_dumper : PyVal → SubDumper) (baseOid : Nat)
      (r : Range PyVal) (b : Bool),
      getItem r = some (.pyBool b) →
      PyVal.isinstance_int (.pyBool b) = true ∧
      ∀ get_range : Nat → Option RangeTypeInfo,
        (RangeDumper.upgrade get_dumper get_range baseOid r).oid =
          INVALID_OID := by
  intro get_dumper baseOid r b hitem
  refine ⟨rfl, fun get_range => ?_⟩
  unfold RangeDumper.upgrade
  rw [hitem]
  simp [PyVal.isinstance_int]

/-- C9 witness: `Range(True, True, "[]")` gets `INVALID_OID` even under a
catalog that maps the boolean dumper's oid to a range oid. -/
theorem range_dumper_upgrade_bool_forces_unknown_witness :
    getItem (⟨some (.pyBool true), some (.pyBool true), ['[', ']']⟩ :
      Range PyVal) = some (.pyBool true) ∧
    (RangeDumper.upgrade (fun _ => ⟨16⟩)
      (fun n => if n = 16 then some ⟨4937⟩ else none) 99
      ⟨some (.pyBool true), some (.pyBool true), ['[', ']']⟩).oid =
      INVALID_OID := by
  refine ⟨rfl, ?_⟩
  exact (range_dumper_upgrade_bool_forces_unknown (fun _ => ⟨16⟩) 99
    ⟨some (.pyBool true), some (.pyBool true), ['[', ']']⟩ true rfl).2
    (fun n => if n = 16 then some ⟨4937⟩ else none)

/-- C2 witness: the field-by-field characterization instantiated at two
concrete integer ranges differing in their lower bound. -/
theorem range_lt_field_by_field_witness :
    Range.lt (⟨some 2, some 7, ['(', ']']⟩ : Range Int)
        ⟨some 3, some 7, ['(', ']']⟩ =
      Range.ltSpec (⟨some 2, some 7, ['(', ']']⟩ : Range Int)
        ⟨some 3, some 7, ['(', ']']⟩ :=
  range_lt_field_by_field.1 Int inferInstance
    ⟨some 2, some 7, ['(', ']']⟩ ⟨some 3, some 7, ['(', ']']⟩

/-- C6 witness: the membership characterization instantiated at a concrete
integer range and point. -/
theorem range_contains_characterization_witness :
    Range.containsVal (⟨some 1, some 10, ['(', ']']⟩ : Range Int) 5 =
      Range.containsSpec (⟨some 1, some 10, ['(', ']']⟩ : Range Int) 5 :=
  range_contains_characterization.1 Int inferInstance
    ⟨some 1, some 10, ['(', ']']⟩ 5
